import Mathlib

set_option maxRecDepth 100000

/-!
# Verification of the simple-tilemap core (tileset addressing + tilemap compositing)

Shallow embedding of `src/tileset.rs` and `src/tilemap.rs`.

Conventions of the embedding:
* `u32` values are `Nat`s kept below `2^32`; every arithmetic operation of the
  source that is performed on `u32` is modelled with an explicit wrap
  (`wadd`, `wsub`, `wmul`), which is the release-profile semantics of Rust
  integer overflow.  Division or remainder by zero panics in Rust in every
  profile; a computation that panics is modelled by `RRes.crash`.
* Byte buffers are `List Nat`; pixel surfaces are total functions from `Int`
  coordinates (the blit service works with `i32` positions).
* External collaborators that are not part of this repository (the
  `simple_blit` blit service, the `fast_srgb8` conversion tables, the derive
  semantics of `rgb::RGBA8`) are modelled from the spec; each such definition
  carries a doc comment starting with `Modelled from the spec:`.
-/

/-- `2^32`, the wrap modulus of Rust `u32` arithmetic. -/
def u32Mod : Nat := 2 ^ 32

/-- Wrapping `u32` addition (release-profile Rust semantics). -/
def wadd (a b : Nat) : Nat := (a + b) % u32Mod

/-- Wrapping `u32` subtraction (release-profile Rust semantics); callers keep
`a` and `b` below `2^32`. -/
def wsub (a b : Nat) : Nat := (a + u32Mod - b) % u32Mod

/-- Wrapping `u32` multiplication (release-profile Rust semantics). -/
def wmul (a b : Nat) : Nat := (a * b) % u32Mod

/-- The `u32 as i32` cast of the source (`x as _` in `Tilemap::render`):
two's-complement reinterpretation. -/
def i32ofU32 (n : Nat) : Int :=
  if n % u32Mod < 2 ^ 31 then ((n % u32Mod : Nat) : Int)
  else ((n % u32Mod : Nat) : Int) - (u32Mod : Int)

/-- Result of a Rust computation that can panic: `crash` is a panic
(overflow checks aside, in this code only division/remainder by zero),
`ret` is normal return. -/
inductive RRes (α : Type) where
  | crash : RRes α
  | ret : α → RRes α
deriving DecidableEq, Repr

/-- Map over a non-panicking result. -/
def RRes.map {α β : Type} (f : α → β) : RRes α → RRes β
  | .crash => .crash
  | .ret a => .ret (f a)

/-- Whether the computation returned (did not panic). -/
def RRes.isRet {α : Type} : RRes α → Bool
  | .crash => false
  | .ret _ => true

/-- Value of a non-panicking result, with a fallback for the panic case. -/
def RRes.getD {α : Type} (r : RRes α) (d : α) : α :=
  match r with
  | .crash => d
  | .ret a => a

/-- `rgb::RGBA8`: four 8-bit channels.  Channels are `Nat`s kept `≤ 255`. -/
structure Color where
  r : Nat
  g : Nat
  b : Nat
  a : Nat
deriving DecidableEq, Repr

/-- Modelled from the spec: `simple_blit::BlitOptions` are per-tile draw flags
"forwarded opaquely to the blit service; not interpreted by this core beyond
pass-through".  Only the default (no flip/rotate) option is modelled, which is
the only value the claims exercise; `BlitOptions::None` and the derived
`Default` are both this value. -/
inductive BlitOptions where
  | none : BlitOptions
deriving DecidableEq, Repr

/-- `TilesetOptions` (src/tileset.rs, lines 14-23). -/
structure TilesetOptions where
  tile_size : Nat × Nat
  offset : Nat × Nat
  margin : Nat × Nat
  key_color : Option Color
deriving DecidableEq, Repr

/-- `Tileset<C>` (src/tileset.rs, lines 70-76).  `data` is the raw byte
buffer exposed by `C: AsRef<[u8]>`. -/
structure Tileset where
  data : List Nat
  width : Nat
  height : Nat
  tile_counts : Nat × Nat
  opts : TilesetOptions
deriving DecidableEq, Repr

/-- `calc_tile_counts` (src/tileset.rs, lines 177-183):
`((width - offset.0 + margin.0) / (tile_size.0 + margin.0), ...)` in `u32`
arithmetic; the division panics when `tile_size + margin` is zero. -/
def calc_tile_counts (width height : Nat) (opts : TilesetOptions) : Option (Nat × Nat) :=
  if wadd opts.tile_size.1 opts.margin.1 = 0 ∨ wadd opts.tile_size.2 opts.margin.2 = 0 then
    none
  else
    some (wadd (wsub width opts.offset.1) opts.margin.1 / wadd opts.tile_size.1 opts.margin.1,
          wadd (wsub height opts.offset.2) opts.margin.2 / wadd opts.tile_size.2 opts.margin.2)

/-- `Tileset::new` (src/tileset.rs, lines 106-120).  The length check of the
source is `data.as_ref().len() == ((width * height) as usize * size_of::<C>())`;
`size_of::<C>()` is the size of the *container* type and is passed here as the
explicit parameter `sizeOfC` (e.g. 16 for `[u8; 16]`, 24 for `Vec<u8>` on
64-bit targets).  The `usize` product is taken mod `2^64`. -/
def Tileset.new (data : List Nat) (width height : Nat) (opts : TilesetOptions)
    (sizeOfC : Nat) : RRes (Option Tileset) :=
  if data.length = (wmul width height * sizeOfC) % 2 ^ 64 then
    match calc_tile_counts width height opts with
    | none => .crash
    | some tc => .ret (some ⟨data, width, height, tc, opts⟩)
  else .ret none

/-- `Tileset::tile_count` (src/tileset.rs, lines 88-91). -/
def Tileset.tile_count (ts : Tileset) : Nat :=
  wmul ts.tile_counts.1 ts.tile_counts.2

/-- `Tileset::contains` (src/tileset.rs, lines 82-85). -/
def Tileset.contains (ts : Tileset) (id : Nat) : Prop :=
  id < ts.tile_count

instance (ts : Tileset) (id : Nat) : Decidable (ts.contains id) :=
  inferInstanceAs (Decidable (id < ts.tile_count))

/-- The arithmetic part of `Tileset::get_tile_pos` (src/tileset.rs, lines
125-129): `x = (id % tile_counts.0) * (tile_size.0 + margin.0) + offset.0`,
`y = (id / tile_counts.0) * (tile_size.1 + margin.1) + offset.1`.  Callers
must have checked `tile_counts.0 ≠ 0` (otherwise `%` and `/` panic). -/
def Tileset.tile_xy (ts : Tileset) (id : Nat) : Nat × Nat :=
  (wadd (wmul (id % ts.tile_counts.1) (wadd ts.opts.tile_size.1 ts.opts.margin.1))
     ts.opts.offset.1,
   wadd (wmul (id / ts.tile_counts.1) (wadd ts.opts.tile_size.2 ts.opts.margin.2))
     ts.opts.offset.2)

/-- `Tileset::get_tile_pos` (src/tileset.rs, lines 124-138).  `id %
tile_counts.0` panics when `tile_counts.0 = 0`; otherwise the computed
position is returned only under the strict bounds
`x + tile_size.0 < width ∧ y + tile_size.1 < height`. -/
def Tileset.get_tile_pos (ts : Tileset) (id : Nat) : RRes (Option (Nat × Nat)) :=
  if ts.tile_counts.1 = 0 then .crash
  else if wadd (ts.tile_xy id).1 ts.opts.tile_size.1 < ts.width ∧
      wadd (ts.tile_xy id).2 ts.opts.tile_size.2 < ts.height then
    .ret (some (ts.tile_xy id))
  else .ret none

/-- `Tile<U>` (src/tilemap.rs, lines 12-25). -/
structure Tile (U : Type) where
  id : Nat
  color : Color
  opts : BlitOptions
  user_data : U
deriving DecidableEq, Repr

/-- `Tile::new` (src/tilemap.rs, lines 33-40): id as given, color opaque
white, no blit options, default user data. -/
def Tile.new (U : Type) [Inhabited U] (id : Nat) : Tile U :=
  ⟨id, ⟨255, 255, 255, 255⟩, BlitOptions.none, Inhabited.default⟩

/-- The derived `Default` for `Tile<U>` (src/tilemap.rs, line 10):
every field takes its own default.  `u32` defaults to 0, the derived
`Default` of `rgb::RGBA8` is all-zero channels, `BlitOptions` defaults to
no options, `U` to `U::default()`. -/
def Tile.default (U : Type) [Inhabited U] : Tile U :=
  ⟨0, ⟨0, 0, 0, 0⟩, BlitOptions.none, Inhabited.default⟩

/-- `Tilemap<C, U>` (src/tilemap.rs, lines 102-107). -/
structure Tilemap (U : Type) where
  tileset : Tileset
  tiles : List (Tile U)
  width : Nat
  height : Nat
deriving DecidableEq, Repr

/-- `Tilemap::new` (src/tilemap.rs, lines 116-123):
`vec![Tile::default(); (width * height) as usize]`. -/
def Tilemap.new (U : Type) [Inhabited U] (width height : Nat) (tileset : Tileset) :
    Tilemap U :=
  ⟨tileset, List.replicate (wmul width height) (Tile.default U), width, height⟩

/-- `Tilemap::get_tile` (src/tilemap.rs, lines 159-161):
`self.tiles.get((y * self.width + x) as usize)` — a checked access at the
flattened index, with no per-coordinate bound check. -/
def Tilemap.get_tile {U : Type} (tm : Tilemap U) (x y : Nat) : Option (Tile U) :=
  tm.tiles.get? (wadd (wmul y tm.width) x)

/-- `Tilemap::set_tile` (src/tilemap.rs, lines 171-175): writes through
`self.tiles.get_mut((y * self.width + x) as usize)` when that index is in
range, otherwise does nothing (`List.set` is a no-op out of range). -/
def Tilemap.set_tile {U : Type} (tm : Tilemap U) (x y : Nat) (tile : Tile U) :
    Tilemap U :=
  { tm with tiles := tm.tiles.set (wadd (wmul y tm.width) x) tile }

/-- The destination pixel surface: what an external
`simple_blit::BufferMut<Color>` implementation exposes — a width, a height,
and per-coordinate pixel access.  `pix` is total here: the blit service only
touches in-bounds destination coordinates, and an out-of-bounds `get` of an
*external* destination implementation is the implementer's responsibility
(spec §6), not behavior of this repository. -/
structure Surface where
  width : Nat
  height : Nat
  pix : Int → Int → Color

/-- Write one pixel of a surface. -/
def Surface.set (s : Surface) (x y : Int) (c : Color) : Surface :=
  { s with pix := fun i j => if i = x ∧ j = y then c else s.pix i j }

/-- A source pixel surface: what a `simple_blit::Buffer<Color>` exposes to
the blit service.  `pix` is partial (`none` = panic of the implementation's
`get`), because the one source implementation the render pass uses is this
repository's `Tileset` buffer, whose slice indexing panics when the backing
data is too short. -/
structure SrcSurface where
  width : Nat
  height : Nat
  pix : Int → Int → Option Color

/-- The RGBA8 pixel stored at pixel index `p` of a byte buffer
(`rgb::AsPixels`: `as_pixels()` exposes `data.length / 4` pixels of four
consecutive bytes each — r g b a — and `index` panics at or beyond that
length, which is `none` here). -/
def colorAt (data : List Nat) (p : Nat) : Option Color :=
  if p < data.length / 4 then
    some ⟨data.getD (4 * p) 0, data.getD (4 * p + 1) 0, data.getD (4 * p + 2) 0,
          data.getD (4 * p + 3) 0⟩
  else none

/-- `impl Buffer<Color> for Tileset` (src/tileset.rs, lines 141-162): pixel
`(x, y)` is `data.as_pixels().index((y * width + x) as usize)` — a panicking
slice index when the pixel index reaches `data.length / 4` (reachable,
because `Tileset::new`'s `size_of::<C>()` length check can accept data
shorter than `width*height*4`). -/
def Tileset.surface (ts : Tileset) : SrcSurface :=
  ⟨ts.width, ts.height, fun x y => colorAt ts.data (wadd (wmul y.toNat ts.width) x.toNat)⟩

/-- The pixel pairs a `size.0 × size.1` blit visits, row-major. -/
def visitList (size : Nat × Nat) : List (Nat × Nat) :=
  (List.range size.2).bind (fun j => (List.range size.1).map (fun i => (i, j)))

/-- One step of the blit loop: visit `(i, j)` of the rectangle, and when both
the destination pixel `destPos + (i, j)` and the source pixel
`srcPos + (i, j)` are in bounds, read the source pixel through the source
surface's own `get` — propagating its panic — and let the per-pixel callback
decide the new destination pixel. -/
def blitStep (src : SrcSurface) (destPos srcPos : Int × Int)
    (f : Color → Color → Nat × Nat → Color) (acc : RRes Surface) (ij : Nat × Nat) :
    RRes Surface :=
  match acc with
  | .crash => .crash
  | .ret d =>
    if 0 ≤ destPos.1 + (ij.1 : Int) ∧ destPos.1 + (ij.1 : Int) < (d.width : Int) ∧
       0 ≤ destPos.2 + (ij.2 : Int) ∧ destPos.2 + (ij.2 : Int) < (d.height : Int) ∧
       0 ≤ srcPos.1 + (ij.1 : Int) ∧ srcPos.1 + (ij.1 : Int) < (src.width : Int) ∧
       0 ≤ srcPos.2 + (ij.2 : Int) ∧ srcPos.2 + (ij.2 : Int) < (src.height : Int) then
      match src.pix (srcPos.1 + (ij.1 : Int)) (srcPos.2 + (ij.2 : Int)) with
      | none => .crash
      | some sp =>
        .ret (d.set (destPos.1 + (ij.1 : Int)) (destPos.2 + (ij.2 : Int))
          (f (d.pix (destPos.1 + (ij.1 : Int)) (destPos.2 + (ij.2 : Int))) sp ij))
    else .ret d

/-- Modelled from the spec: the external blit service
(`simple_blit::blit_with`).  "Given a destination surface, a destination
offset, a source surface, a source offset, a rectangle size, a set of draw
options, and a per-pixel callback `(dest_pixel, source_pixel, position)`,
copies/composites the rectangle from source to destination, clipping to both
surfaces' bounds, invoking the callback once per visited pixel pair."  A
panic of the source surface's `get` (the `Tileset` buffer's out-of-bounds
slice index) propagates out of the blit.  The draw options are forwarded
opaquely and only the default option is modelled (no claim exercises
flips). -/
def blit_with (dest : Surface) (destPos : Int × Int) (src : SrcSurface)
    (srcPos : Int × Int) (size : Nat × Nat) (opts : BlitOptions)
    (f : Color → Color → Nat × Nat → Color) : RRes Surface :=
  match opts with
  | .none => (visitList size).foldl (blitStep src destPos srcPos f) (.ret dest)

/-- Greatest `r ≤ k` with `r * r ≤ n` (0 when there is none): the search
step of `isqrt`, structurally recursive so that the kernel can evaluate it. -/
def isqrtGo (n : Nat) : Nat → Nat
  | 0 => 0
  | r + 1 => if (r + 1) * (r + 1) ≤ n then r + 1 else isqrtGo n r

/-- Integer square root (greatest `r` with `r * r ≤ n`), kernel-reducible. -/
def isqrt (n : Nat) : Nat := isqrtGo n n

/-- Modelled from the spec: the composite of the external `fast_srgb8`
conversion tables and the linear-light multiply of one channel —
`f32_to_srgb8(srgb8_to_f32(s) * srgb8_to_f32(t))`.  The spec pins the tables
to be monotonic, to round-trip 0 to exactly 0 and 255 (linear 1.0) to exactly
255, and the multiply to happen on the linear values; we model the transfer
curve as gamma-2 (`toLinear v = (v/255)^2`, `fromLinear q =
sqrt(round(q * 255^2))` clamped to 255), which satisfies every property the
spec states of the tables.  `65025 = 255^2`, `130050 = 2 * 255^2`; the
`(2*n + m) / (2*m)` form is `round(n/m)` in integers. -/
def tintChannel (s t : Nat) : Nat :=
  min 255 (isqrt ((2 * s * s * t * t + 65025) / 130050))

/-- The tinted pixel written by the render callback for a non-key source
pixel (src/tilemap.rs, lines 208-215): every channel of the source is
multiplied by the same channel of the tile's tint color in linear light. -/
def tintPixel (color src : Color) : Color :=
  ⟨tintChannel src.r color.r, tintChannel src.g color.g,
   tintChannel src.b color.b, tintChannel src.a color.a⟩

/-- The per-pixel callback of `Tilemap::render` (src/tilemap.rs, lines
206-217): if `Some(*src) != key_color` the destination pixel is overwritten
with the tinted source pixel, otherwise it is left untouched. -/
def pixelRule (color : Color) (key : Option Color) (dest src : Color)
    (pos : Nat × Nat) : Color :=
  if some src ≠ key then tintPixel color src else dest

/-- The cells `(tx, ty)` of the render loop, `ty` outer, `tx` inner
(src/tilemap.rs, lines 189-190). -/
def cellList (width height : Nat) : List (Nat × Nat) :=
  (List.range height).bind (fun ty => (List.range width).map (fun tx => (tx, ty)))

/-- One cell of the render loop (src/tilemap.rs, lines 191-219): read the
cell's tile through `Buffer::get` (an unchecked index — panics if the flat
index is out of range of `tiles`), resolve its source position, skip the cell
if there is none, otherwise blit one `tile_size` rectangle.  The destination
position passed to the blit service is the constant `(offset_x, offset_y)`,
exactly as in the source. -/
def renderStep {U : Type} (tm : Tilemap U) (offset_x offset_y : Int)
    (acc : RRes Surface) (cell : Nat × Nat) : RRes Surface :=
  match acc with
  | .crash => .crash
  | .ret s =>
    match tm.tiles.get? (wadd (wmul cell.2 tm.width) cell.1) with
    | none => .crash
    | some tile =>
      match tm.tileset.get_tile_pos tile.id with
      | .crash => .crash
      | .ret none => .ret s
      | .ret (some p) =>
        blit_with s (offset_x, offset_y) tm.tileset.surface
          (i32ofU32 p.1, i32ofU32 p.2) tm.tileset.opts.tile_size tile.opts
          (pixelRule tile.color tm.tileset.opts.key_color)

/-- `Tilemap::render` (src/tilemap.rs, lines 183-222). -/
def Tilemap.render {U : Type} (tm : Tilemap U) (surface : Surface)
    (offset_x offset_y : Int) : RRes Surface :=
  (cellList tm.width tm.height).foldl (renderStep tm offset_x offset_y) (.ret surface)

/-- A 2x2-pixel, 16-byte tileset with 1x1 tiles, used as a small concrete
instance in witnesses and counterexamples. -/
def tsW : Tileset :=
  ⟨List.replicate 16 0, 2, 2, (2, 2), ⟨(1, 1), (0, 0), (0, 0), Option.none⟩⟩

/-- The 8x8-pixel atlas of claim C6: tile_size (4,4), no offset, no margin,
`tile_counts = (2, 2)`. -/
def tsC6 : Tileset :=
  ⟨List.replicate 256 0, 8, 8, (2, 2), ⟨(4, 4), (0, 0), (0, 0), Option.none⟩⟩

/-- A 4x4-pixel tileset (64 bytes in a `Vec<u8>`-style container of
`size_of` 4 per pixel) whose 8x8 tile size makes both derived tile counts
zero. -/
def tsC5 : Tileset :=
  ⟨List.replicate 64 0, 4, 4, (0, 0), ⟨(8, 8), (0, 0), (0, 0), Option.none⟩⟩

/-- A tile distinct from the default tile, for the grid-accessor
counterexample. -/
def tRed : Tile Unit := ⟨0, ⟨255, 0, 0, 255⟩, BlitOptions.none, ()⟩

/-- C2: `Tileset::new` checks `data.len() == width*height*size_of::<C>()`,
where `size_of::<C>()` is the size of the container type, not of a pixel.
For `C = [u8; 16]` (`size_of` 16), a 16-byte buffer with `width = height =
2` satisfies the claimed `width*height*4 = 16` exactly, yet construction
returns `None` because the code demands `2*2*16 = 64` bytes. -/
theorem c2_new_size_check :
    Tileset.new (List.replicate 16 0) 2 2 ⟨(1, 1), (0, 0), (0, 0), Option.none⟩ 16 =
      RRes.ret none ∧
    (List.replicate 16 (0 : Nat)).length = 2 * 2 * 4 := by
  decide

/-- C6: on an 8x8 atlas with tile_size (4,4), zero offset and zero margin
(2x2 tiles, `tile_count() = 4`), `get_tile_pos(3)` computes the position
`(4, 4)` and rejects it, because the bound `4 + 4 < 8` is checked with
strict less-than and fails. -/
theorem c6_flush_edge_rejected :
    Tileset.new (List.replicate 256 0) 8 8 ⟨(4, 4), (0, 0), (0, 0), Option.none⟩ 4 =
      RRes.ret (some tsC6) ∧
    tsC6.tile_count = 4 ∧
    tsC6.tile_xy 3 = (4, 4) ∧
    ¬ wadd 4 4 < 8 ∧
    tsC6.get_tile_pos 3 = RRes.ret none := by
  decide

/-- C3 counterexample: on a 2x2 map, the coordinate (2, 0) is out of range
(`x ≥ width`), yet `get_tile(2, 0)` returns a tile — the flattened index
`0*2+2 = 2` aliases to cell (0, 1) — and `set_tile(2, 0, ·)` overwrites
cell (0, 1) rather than being a no-op. -/
theorem c3_counterexample :
    (Tilemap.new Unit 2 2 tsW).get_tile 2 0 = some (Tile.default Unit) ∧
    ((Tilemap.new Unit 2 2 tsW).set_tile 2 0 tRed).get_tile 0 1 = some tRed ∧
    tRed ≠ Tile.default Unit := by
  decide

/-- C4 counterexample: a freshly constructed 1x1 tilemap holds
`Tile::default()`, whose color is the derived all-zero RGBA
`(0, 0, 0, 0)` — not the opaque white `(255, 255, 255, 255)` the claim
states. -/
theorem c4_counterexample :
    ((Tilemap.new Unit 1 1 tsW).get_tile 0 0).map Tile.color = some ⟨0, 0, 0, 0⟩ ∧
    (⟨0, 0, 0, 0⟩ : Color) ≠ ⟨255, 255, 255, 255⟩ := by
  decide

/-- A 4x4 destination surface pre-filled with the sentinel `(1, 2, 3, 4)`. -/
def surfW : Surface := ⟨4, 4, fun _ _ => ⟨1, 2, 3, 4⟩⟩

/-- A tileset with *no* backing bytes accepted as a 9x9 atlas: for
`C = [u8; 0]` (`size_of::<C>() = 0`) the length check `0 == 81*0` passes, so
`Tileset::new` accepts empty data for any dimensions, deriving
`tile_counts = (2, 2)`. -/
def tsE : Tileset :=
  ⟨[], 9, 9, (2, 2), ⟨(4, 4), (0, 0), (0, 0), Option.none⟩⟩

/-- C5 counterexample: operations of the render pass do fail loudly.  (a) A
4x4 tileset with 8x8 tiles is accepted by construction with
`tile_counts = (0, 0)`, and then `get_tile_pos(0)` panics on `id % 0`;
(b) a layout with zero tile size and zero margin makes `Tileset::new` itself
panic on a division by zero in `calc_tile_counts`; (c) a tileset accepted
with empty data (via `size_of::<C>() = 0`, i.e. `C = [u8; 0]`) makes
`render` panic on the very first source-pixel read: `get_tile_pos 0`
succeeds, the blit visits pixel (0, 0), and the `Tileset` buffer's slice
index is out of bounds. -/
theorem c5_counterexample :
    Tileset.new (List.replicate 64 0) 4 4 ⟨(8, 8), (0, 0), (0, 0), Option.none⟩ 4 =
      RRes.ret (some tsC5) ∧
    tsC5.get_tile_pos 0 = RRes.crash ∧
    Tileset.new [] 0 0 ⟨(0, 0), (0, 0), (0, 0), Option.none⟩ 4 = RRes.crash ∧
    Tileset.new [] 9 9 ⟨(4, 4), (0, 0), (0, 0), Option.none⟩ 0 = RRes.ret (some tsE) ∧
    tsE.get_tile_pos 0 = RRes.ret (some (0, 0)) ∧
    ((Tilemap.new Unit 1 1 tsE).render surfW 0 0).isRet = false := by
  decide

/-- The 9x9-pixel atlas of the C1 scenario: tile_size (4,4), no offset or
margin, `tile_counts = (2, 2)`; every byte is 9, so every pixel is
`(9, 9, 9, 9)`. -/
def tsC1 : Tileset :=
  ⟨List.replicate 324 9, 9, 9, (2, 2), ⟨(4, 4), (0, 0), (0, 0), Option.none⟩⟩

/-- A white tile with the out-of-range id 4 (`get_tile_pos 4` computes
`(0, 8)` and rejects it). -/
def tInv : Tile Unit := ⟨4, ⟨255, 255, 255, 255⟩, BlitOptions.none, ()⟩

/-- A white tile with the valid id 0. -/
def tWhite : Tile Unit := ⟨0, ⟨255, 255, 255, 255⟩, BlitOptions.none, ()⟩

/-- The 2x2 map of the C1 scenario: cell (1, 1) holds `Tile{id: 0, color:
white}`, all other cells hold the out-of-range id 4. -/
def tmC1 : Tilemap Unit :=
  ((((Tilemap.new Unit 2 2 tsC1).set_tile 0 0 tInv).set_tile 1 0 tInv).set_tile
      0 1 tInv).set_tile 1 1 tWhite

/-- The 8x8 destination of the C1 scenario, pre-filled with the sentinel
color `(1, 2, 3, 4)`. -/
def surfC1 : Surface := ⟨8, 8, fun _ _ => ⟨1, 2, 3, 4⟩⟩

/-- C1: the render call passes the constant `(offset_x, offset_y)` as the
blit destination for every grid cell, so the tile of cell (1, 1) is drawn at
the destination region of cell (0, 0).  In the claimed scenario the
destination pixel (0, 0) — which the claim says must stay sentinel — becomes
the tile color `(9, 9, 9, 9)`, while pixel (4, 4) inside cell (1, 1)'s
claimed region stays sentinel. -/
theorem c1_render_misplacement :
    Tileset.new (List.replicate 324 9) 9 9 ⟨(4, 4), (0, 0), (0, 0), Option.none⟩ 4 =
      RRes.ret (some tsC1) ∧
    (tmC1.render surfC1 0 0).isRet = true ∧
    ((tmC1.render surfC1 0 0).getD surfC1).pix 0 0 = ⟨9, 9, 9, 9⟩ ∧
    ((tmC1.render surfC1 0 0).getD surfC1).pix 4 4 = ⟨1, 2, 3, 4⟩ ∧
    (⟨9, 9, 9, 9⟩ : Color) ≠ ⟨1, 2, 3, 4⟩ := by
  decide

lemma isqrtGo_eq {n : Nat} (s : Nat) :
    ∀ k, s ≤ k → s * s ≤ n → (∀ r, s < r → r ≤ k → n < r * r) → isqrtGo n k = s := by
  intro k
  induction k with
  | zero =>
    intro hs _ _
    have : s = 0 := by omega
    subst this
    rfl
  | succ k ih =>
    intro hs h1 h2
    by_cases hsk : s = k + 1
    · subst hsk
      simp only [isqrtGo, if_pos h1]
    · have hlt : n < (k + 1) * (k + 1) := h2 (k + 1) (by omega) (Nat.le_refl _)
      simp only [isqrtGo, if_neg (by omega : ¬ (k + 1) * (k + 1) ≤ n)]
      exact ih (by omega) h1 (fun rr hr hrk => h2 rr hr (by omega))

lemma isqrt_mul_self (s : Nat) : isqrt (s * s) = s := by
  unfold isqrt
  apply isqrtGo_eq
  · rcases Nat.eq_zero_or_pos s with h | h
    · simp [h]
    · calc s = s * 1 := by ring
        _ ≤ s * s := Nat.mul_le_mul_left s h
  · exact Nat.le_refl _
  · exact fun rr hr _ => Nat.mul_self_lt_mul_self hr

lemma tintChannel_zero_left (t : Nat) : tintChannel 0 t = 0 := by
  have h : 2 * 0 * 0 * t * t + 65025 = 65025 := by ring
  unfold tintChannel
  rw [h, Nat.div_eq_of_lt (by norm_num)]
  rfl

lemma tintChannel_zero_right (s : Nat) : tintChannel s 0 = 0 := by
  have h : 2 * s * s * 0 * 0 + 65025 = 65025 := by ring
  unfold tintChannel
  rw [h, Nat.div_eq_of_lt (by norm_num)]
  rfl

lemma tintChannel_white (s : Nat) (hs : s ≤ 255) : tintChannel s 255 = s := by
  have h1 : 2 * s * s * 255 * 255 + 65025 = 65025 * (2 * (s * s) + 1) := by ring
  have h3 : (130050 : Nat) = 65025 * 2 := by norm_num
  have h2 : 65025 * (2 * (s * s) + 1) / 130050 = s * s := by
    rw [h3, Nat.mul_div_mul_left _ _ (by norm_num : (0 : Nat) < 65025)]
    omega
  unfold tintChannel
  rw [h1, h2, isqrt_mul_self]
  omega

/-- C8: the per-pixel tinting rule round-trips at the extremes.  For every
non-key source pixel `(r, g, b, a)` of 8-bit channels, the tile tint
`(255, 255, 255, 255)` writes exactly `(r, g, b, a)` to the destination, and
a channel whose source or tint value is 0 produces exactly 0. -/
theorem c8_tint_extremes (r g b a : Nat) (key : Option Color) (dest : Color)
    (pos : Nat × Nat) (hr : r ≤ 255) (hg : g ≤ 255) (hb : b ≤ 255) (ha : a ≤ 255)
    (hk : some (⟨r, g, b, a⟩ : Color) ≠ key) :
    pixelRule ⟨255, 255, 255, 255⟩ key dest ⟨r, g, b, a⟩ pos = ⟨r, g, b, a⟩ ∧
    (∀ s t : Nat, tintChannel 0 t = 0 ∧ tintChannel s 0 = 0) := by
  constructor
  · unfold pixelRule
    rw [if_pos hk]
    unfold tintPixel
    show Color.mk (tintChannel r 255) (tintChannel g 255) (tintChannel b 255)
      (tintChannel a 255) = _
    rw [tintChannel_white r hr, tintChannel_white g hg, tintChannel_white b hb,
      tintChannel_white a ha]
  · exact fun s t => ⟨tintChannel_zero_left t, tintChannel_zero_right s⟩

/-- Witness for C8 at a concrete non-key pixel. -/
theorem c8_tint_extremes_witness :
    pixelRule ⟨255, 255, 255, 255⟩ Option.none ⟨1, 2, 3, 4⟩ ⟨9, 9, 9, 9⟩ (0, 0) =
      ⟨9, 9, 9, 9⟩ ∧ tintChannel 0 7 = 0 :=
  ⟨(c8_tint_extremes 9 9 9 9 Option.none ⟨1, 2, 3, 4⟩ (0, 0) (by decide) (by decide)
      (by decide) (by decide) (by decide)).1,
   ((c8_tint_extremes 9 9 9 9 Option.none ⟨1, 2, 3, 4⟩ (0, 0) (by decide) (by decide)
      (by decide) (by decide) (by decide)).2 0 7).1⟩

/-- C10: for every non-key source pixel the render callback overwrites the
destination pixel with the tinted source value; the destination's prior
content never contributes (the result is the same for any two prior
destination pixels — there is no alpha blending with the destination). -/
theorem c10_dest_never_contributes (tint : Color) (key : Option Color)
    (dest dest2 src : Color) (pos pos2 : Nat × Nat) (h : some src ≠ key) :
    pixelRule tint key dest src pos = tintPixel tint src ∧
    pixelRule tint key dest src pos = pixelRule tint key dest2 src pos2 := by
  unfold pixelRule
  rw [if_pos h, if_pos h]
  exact ⟨rfl, rfl⟩

/-- Witness for C10 at a concrete non-key pixel and two different prior
destination pixels. -/
theorem c10_dest_never_contributes_witness :
    pixelRule ⟨0, 0, 0, 255⟩ Option.none ⟨7, 7, 7, 7⟩ ⟨5, 5, 5, 5⟩ (1, 1) =
      tintPixel ⟨0, 0, 0, 255⟩ ⟨5, 5, 5, 5⟩ ∧
    pixelRule ⟨0, 0, 0, 255⟩ Option.none ⟨7, 7, 7, 7⟩ ⟨5, 5, 5, 5⟩ (1, 1) =
      pixelRule ⟨0, 0, 0, 255⟩ Option.none ⟨200, 100, 50, 25⟩ ⟨5, 5, 5, 5⟩ (0, 3) :=
  c10_dest_never_contributes ⟨0, 0, 0, 255⟩ Option.none ⟨7, 7, 7, 7⟩
    ⟨200, 100, 50, 25⟩ ⟨5, 5, 5, 5⟩ (1, 1) (0, 3) (by decide)

/-- C3 (amended): the grid accessors are bounds-checked against the
flattened index, not against the pair of coordinates.  `get_tile(x, y)`
returns no value exactly when the flattened index `y*width + x` (u32
arithmetic) reaches `tiles.length`, and `set_tile` is then a no-op that
leaves the map unchanged; an out-of-range `x` whose flattened index is still
in range instead aliases into a later row.  No access is ever out of bounds
of the backing storage. -/
theorem c3_flat_index_bounds (U : Type) (tm : Tilemap U) (x y : Nat) (t : Tile U) :
    (tm.get_tile x y = none ↔ tm.tiles.length ≤ wadd (wmul y tm.width) x) ∧
    (tm.tiles.length ≤ wadd (wmul y tm.width) x → tm.set_tile x y t = tm) := by
  constructor
  · exact List.get?_eq_none
  · intro h
    unfold Tilemap.set_tile
    rw [List.set_eq_of_length_le h]

/-- Witness for C3 (amended): on a 2x2 map the coordinate (5, 1) has
flattened index 7 ≥ 4, so the read misses and the write is a no-op. -/
theorem c3_flat_index_bounds_witness :
    (Tilemap.new Unit 2 2 tsW).get_tile 5 1 = none ∧
    (Tilemap.new Unit 2 2 tsW).set_tile 5 1 tRed = Tilemap.new Unit 2 2 tsW :=
  ⟨(c3_flat_index_bounds Unit (Tilemap.new Unit 2 2 tsW) 5 1 tRed).1.mpr (by decide),
   (c3_flat_index_bounds Unit (Tilemap.new Unit 2 2 tsW) 5 1 tRed).2 (by decide)⟩

/-- C4 (amended): every cell of a freshly constructed tilemap holds the
derived default tile — id 0, color `(0, 0, 0, 0)` (transparent black, not
opaque white), no blit options, default user data. -/
theorem c4_fresh_map_default (U : Type) [Inhabited U] (w h x y : Nat) (ts : Tileset)
    (hx : x < w) (hy : y < h) (hwh : w * h < u32Mod) :
    (Tilemap.new U w h ts).get_tile x y = some (Tile.default U) := by
  unfold Tilemap.new Tilemap.get_tile
  have hyw : y * w + x < w * h := by
    calc y * w + x < y * w + w := by omega
      _ = (y + 1) * w := by ring
      _ ≤ h * w := Nat.mul_le_mul_right w (by omega)
      _ = w * h := Nat.mul_comm h w
  have h1 : wmul y w = y * w := by
    unfold wmul
    exact Nat.mod_eq_of_lt (by omega)
  have h2 : wadd (y * w) x = y * w + x := by
    unfold wadd
    exact Nat.mod_eq_of_lt (by omega)
  have h3 : wmul w h = w * h := by
    unfold wmul
    exact Nat.mod_eq_of_lt hwh
  simp only [h1, h2, h3, List.get?_eq_getElem?]
  exact List.getElem?_replicate_of_lt hyw

/-- Witness for C4 (amended) on a fresh 3x2 map. -/
theorem c4_fresh_map_default_witness :
    (Tilemap.new Unit 3 2 tsW).get_tile 2 1 = some (Tile.default Unit) :=
  c4_fresh_map_default Unit 3 2 2 1 tsW (by decide) (by decide) (by decide)

lemma u32Mod_eq : u32Mod = 4294967296 := by norm_num [u32Mod]

/-- A successful `Tileset::new` stores its arguments verbatim and derives
`tile_counts` through `calc_tile_counts`. -/
lemma new_elim {data : List Nat} {w h : Nat} {opts : TilesetOptions} {sz : Nat}
    {ts : Tileset} (hnew : Tileset.new data w h opts sz = RRes.ret (some ts)) :
    ts.data = data ∧ ts.width = w ∧ ts.height = h ∧ ts.opts = opts ∧
    calc_tile_counts w h opts = some ts.tile_counts := by
  unfold Tileset.new at hnew
  split at hnew
  · split at hnew
    · cases hnew
    · rename_i tc heq
      cases hnew
      exact ⟨rfl, rfl, rfl, rfl, by rw [heq]⟩
  · cases hnew

/-- In the range where no `u32` operation wraps, `calc_tile_counts` is the
plain truncating-division formula of the spec. -/
lemma calc_tile_counts_nowrap {w h : Nat} {opts : TilesetOptions}
    (hw : w < u32Mod) (hh : h < u32Mod)
    (hox : opts.offset.1 ≤ w) (hoy : opts.offset.2 ≤ h)
    (hnx : w - opts.offset.1 + opts.margin.1 < u32Mod)
    (hny : h - opts.offset.2 + opts.margin.2 < u32Mod)
    (hdx : opts.tile_size.1 + opts.margin.1 < u32Mod)
    (hdy : opts.tile_size.2 + opts.margin.2 < u32Mod)
    (hdx0 : opts.tile_size.1 + opts.margin.1 ≠ 0)
    (hdy0 : opts.tile_size.2 + opts.margin.2 ≠ 0) :
    calc_tile_counts w h opts =
      some ((w - opts.offset.1 + opts.margin.1) / (opts.tile_size.1 + opts.margin.1),
            (h - opts.offset.2 + opts.margin.2) / (opts.tile_size.2 + opts.margin.2)) := by
  rw [u32Mod_eq] at hw hh hnx hny hdx hdy
  have e1 : wadd opts.tile_size.1 opts.margin.1 = opts.tile_size.1 + opts.margin.1 := by
    unfold wadd
    rw [u32Mod_eq]
    omega
  have e2 : wadd opts.tile_size.2 opts.margin.2 = opts.tile_size.2 + opts.margin.2 := by
    unfold wadd
    rw [u32Mod_eq]
    omega
  have e3 : wadd (wsub w opts.offset.1) opts.margin.1 =
      w - opts.offset.1 + opts.margin.1 := by
    unfold wadd wsub
    rw [u32Mod_eq]
    omega
  have e4 : wadd (wsub h opts.offset.2) opts.margin.2 =
      h - opts.offset.2 + opts.margin.2 := by
    unfold wadd wsub
    rw [u32Mod_eq]
    omega
  unfold calc_tile_counts
  rw [e1, e2, e3, e4, if_neg (by push_neg; exact ⟨hdx0, hdy0⟩)]

/-- C9: for every tileset accepted by construction (in the range where no
`u32` operation wraps), `tile_counts` is exactly
`((width - offset.x + margin.x) / (tile_size.x + margin.x),
(height - offset.y + margin.y) / (tile_size.y + margin.y))` with truncating
division, `tile_count()` is `tile_counts.x * tile_counts.y`, and a tile id is
valid (`contains id`) exactly when `id < tile_count()`. -/
theorem c9_tile_counts (data : List Nat) (w h : Nat) (opts : TilesetOptions) (sz : Nat)
    (ts : Tileset) (hnew : Tileset.new data w h opts sz = RRes.ret (some ts))
    (hw : w < u32Mod) (hh : h < u32Mod)
    (hox : opts.offset.1 ≤ w) (hoy : opts.offset.2 ≤ h)
    (hnx : w - opts.offset.1 + opts.margin.1 < u32Mod)
    (hny : h - opts.offset.2 + opts.margin.2 < u32Mod)
    (hdx : opts.tile_size.1 + opts.margin.1 < u32Mod)
    (hdy : opts.tile_size.2 + opts.margin.2 < u32Mod)
    (hprod : (w - opts.offset.1 + opts.margin.1) / (opts.tile_size.1 + opts.margin.1) *
        ((h - opts.offset.2 + opts.margin.2) / (opts.tile_size.2 + opts.margin.2)) <
        u32Mod) :
    ts.tile_counts =
      ((w - opts.offset.1 + opts.margin.1) / (opts.tile_size.1 + opts.margin.1),
       (h - opts.offset.2 + opts.margin.2) / (opts.tile_size.2 + opts.margin.2)) ∧
    ts.tile_count = ts.tile_counts.1 * ts.tile_counts.2 ∧
    (∀ id, ts.contains id ↔ id < ts.tile_count) := by
  have hcalc := (new_elim hnew).2.2.2.2
  have hdx0 : opts.tile_size.1 + opts.margin.1 ≠ 0 := by
    intro hc
    unfold calc_tile_counts at hcalc
    rw [if_pos (Or.inl (by unfold wadd; rw [hc]; rfl))] at hcalc
    cases hcalc
  have hdy0 : opts.tile_size.2 + opts.margin.2 ≠ 0 := by
    intro hc
    unfold calc_tile_counts at hcalc
    rw [if_pos (Or.inr (by unfold wadd; rw [hc]; rfl))] at hcalc
    cases hcalc
  rw [calc_tile_counts_nowrap hw hh hox hoy hnx hny hdx hdy hdx0 hdy0] at hcalc
  have htc : ts.tile_counts =
      ((w - opts.offset.1 + opts.margin.1) / (opts.tile_size.1 + opts.margin.1),
       (h - opts.offset.2 + opts.margin.2) / (opts.tile_size.2 + opts.margin.2)) :=
    (Option.some.inj hcalc).symm
  refine ⟨htc, ?_, fun id => Iff.rfl⟩
  unfold Tileset.tile_count wmul
  rw [htc]
  exact Nat.mod_eq_of_lt hprod

/-- Witness for C9 on the concrete 2x2 tileset `tsW`. -/
theorem c9_tile_counts_witness :
    tsW.tile_counts = (2, 2) ∧ tsW.tile_count = tsW.tile_counts.1 * tsW.tile_counts.2 ∧
      (tsW.contains 3 ↔ 3 < tsW.tile_count) := by
  have hx := c9_tile_counts (List.replicate 16 0) 2 2 ⟨(1, 1), (0, 0), (0, 0), Option.none⟩
    4 tsW (by decide) (by decide) (by decide) (by decide) (by decide) (by decide)
    (by decide) (by decide) (by decide) (by decide)
  exact ⟨by rw [hx.1]; rfl, hx.2.1, hx.2.2 3⟩

lemma mem_cellList {w h : Nat} {c : Nat × Nat} (hc : c ∈ cellList w h) :
    c.1 < w ∧ c.2 < h := by
  unfold cellList at hc
  rw [List.mem_bind] at hc
  obtain ⟨ty, hty, hc⟩ := hc
  rw [List.mem_map] at hc
  obtain ⟨tx, htx, rfl⟩ := hc
  exact ⟨List.mem_range.mp htx, List.mem_range.mp hty⟩

lemma tiles_get?_isSome {U : Type} (tm : Tilemap U)
    (hlen : tm.tiles.length = tm.width * tm.height)
    (hwh : tm.width * tm.height < u32Mod) {c : Nat × Nat}
    (hx : c.1 < tm.width) (hy : c.2 < tm.height) :
    ∃ t, tm.tiles.get? (wadd (wmul c.2 tm.width) c.1) = some t := by
  have hidx : c.2 * tm.width + c.1 < tm.width * tm.height := by
    calc c.2 * tm.width + c.1 < c.2 * tm.width + tm.width := by omega
      _ = (c.2 + 1) * tm.width := by ring
      _ ≤ tm.height * tm.width := Nat.mul_le_mul_right _ (by omega)
      _ = tm.width * tm.height := Nat.mul_comm _ _
  have h1 : wmul c.2 tm.width = c.2 * tm.width := by
    unfold wmul
    exact Nat.mod_eq_of_lt (by omega)
  have h2 : wadd (c.2 * tm.width) c.1 = c.2 * tm.width + c.1 := by
    unfold wadd
    exact Nat.mod_eq_of_lt (by omega)
  rw [h1, h2]
  cases hg : tm.tiles.get? (c.2 * tm.width + c.1) with
  | none =>
    rw [List.get?_eq_none] at hg
    omega
  | some t => exact ⟨t, rfl⟩

lemma get_tile_pos_isRet (ts : Tileset) (htc : ts.tile_counts.1 ≠ 0) (id : Nat) :
    (ts.get_tile_pos id).isRet = true := by
  unfold Tileset.get_tile_pos
  rw [if_neg htc]
  split <;> rfl

lemma Surface.set_pix_self (s : Surface) (x y a b : Int) :
    (s.set x y (s.pix x y)).pix a b = s.pix a b := by
  unfold Surface.set
  dsimp only
  split
  · rename_i hab
    rw [hab.1, hab.2]
  · rfl

lemma blit_with_eq (dest : Surface) (destPos : Int × Int) (src : SrcSurface)
    (srcPos : Int × Int) (size : Nat × Nat) (opts : BlitOptions)
    (f : Color → Color → Nat × Nat → Color) :
    blit_with dest destPos src srcPos size opts f =
      (visitList size).foldl (blitStep src destPos srcPos f) (.ret dest) := by
  cases opts
  rfl

/-- Every in-bounds pixel read of a tileset whose data holds the full
`width*height*4` bytes succeeds (no slice-index panic). -/
lemma surface_pix_isSome (ts : Tileset)
    (hdata : ts.data.length = 4 * (ts.width * ts.height))
    (hts : ts.width * ts.height < u32Mod) :
    ∀ x y : Int, 0 ≤ x → x < ((ts.width : Nat) : Int) → 0 ≤ y →
      y < ((ts.height : Nat) : Int) → (ts.surface.pix x y).isSome = true := by
  intro x y hx0 hx hy0 hy
  have hxw : x.toNat < ts.width := by omega
  have hyh : y.toNat < ts.height := by omega
  have hidx : y.toNat * ts.width + x.toNat < ts.width * ts.height := by
    calc y.toNat * ts.width + x.toNat < y.toNat * ts.width + ts.width := by omega
      _ = (y.toNat + 1) * ts.width := by ring
      _ ≤ ts.height * ts.width := Nat.mul_le_mul_right _ (by omega)
      _ = ts.width * ts.height := Nat.mul_comm _ _
  have h1 : wmul y.toNat ts.width = y.toNat * ts.width := by
    unfold wmul
    exact Nat.mod_eq_of_lt (by omega)
  have h2 : wadd (y.toNat * ts.width) x.toNat = y.toNat * ts.width + x.toNat := by
    unfold wadd
    exact Nat.mod_eq_of_lt (by omega)
  show (colorAt ts.data (wadd (wmul y.toNat ts.width) x.toNat)).isSome = true
  rw [h1, h2]
  unfold colorAt
  rw [if_pos]
  · rfl
  · rw [hdata, Nat.mul_div_cancel_left _ (by norm_num : 0 < 4)]
    omega

/-- A blit whose source reads all succeed does not panic. -/
lemma blitFold_isRet (src : SrcSurface) (destPos srcPos : Int × Int)
    (f : Color → Color → Nat × Nat → Color)
    (hsome : ∀ x y : Int, 0 ≤ x → x < (src.width : Int) → 0 ≤ y →
      y < (src.height : Int) → (src.pix x y).isSome = true) :
    ∀ (l : List (Nat × Nat)) (d : Surface),
      ∃ d2, l.foldl (blitStep src destPos srcPos f) (.ret d) = .ret d2 := by
  intro l
  induction l with
  | nil => exact fun d => ⟨d, rfl⟩
  | cons ij l ih =>
    intro d
    rw [List.foldl_cons]
    have hstep : ∃ d1, blitStep src destPos srcPos f (.ret d) ij = .ret d1 := by
      simp only [blitStep]
      split
      · rename_i hcond
        cases hp : src.pix (srcPos.1 + (ij.1 : Int)) (srcPos.2 + (ij.2 : Int)) with
        | none =>
          have hs := hsome _ _ hcond.2.2.2.2.1 hcond.2.2.2.2.2.1 hcond.2.2.2.2.2.2.1
            hcond.2.2.2.2.2.2.2
          rw [hp] at hs
          cases hs
        | some sp => exact ⟨_, rfl⟩
      · exact ⟨d, rfl⟩
    obtain ⟨d1, hd1⟩ := hstep
    rw [hd1]
    exact ih d1

/-- A blit whose per-pixel callback leaves the destination pixel unchanged on
every pixel the source can supply (all in-bounds source pixels carry the
value `k`, and `f` returns the prior destination pixel on `k`) neither
panics nor changes the destination surface. -/
lemma blitFold_key_id (src : SrcSurface) (destPos srcPos : Int × Int) (k : Color)
    (f : Color → Color → Nat × Nat → Color)
    (hsrc : ∀ x y : Int, 0 ≤ x → x < (src.width : Int) → 0 ≤ y →
      y < (src.height : Int) → src.pix x y = some k)
    (hf : ∀ d ij, f d k ij = d) :
    ∀ (l : List (Nat × Nat)) (d : Surface),
      ∃ d2, l.foldl (blitStep src destPos srcPos f) (.ret d) = .ret d2 ∧
        ∀ a b : Int, d2.pix a b = d.pix a b := by
  intro l
  induction l with
  | nil => exact fun d => ⟨d, rfl, fun a b => rfl⟩
  | cons ij l ih =>
    intro d
    rw [List.foldl_cons]
    have hstep : blitStep src destPos srcPos f (.ret d) ij = .ret d ∨
        blitStep src destPos srcPos f (.ret d) ij =
          .ret (d.set (destPos.1 + (ij.1 : Int)) (destPos.2 + (ij.2 : Int))
            (d.pix (destPos.1 + (ij.1 : Int)) (destPos.2 + (ij.2 : Int)))) := by
      simp only [blitStep]
      split
      · rename_i hcond
        rw [hsrc _ _ hcond.2.2.2.2.1 hcond.2.2.2.2.2.1 hcond.2.2.2.2.2.2.1
          hcond.2.2.2.2.2.2.2]
        right
        simp only [hf]
      · left
        rfl
    rcases hstep with h | h
    · rw [h]
      exact ih d
    · rw [h]
      obtain ⟨d2, hfold, hpix⟩ := ih (d.set (destPos.1 + (ij.1 : Int))
        (destPos.2 + (ij.2 : Int))
        (d.pix (destPos.1 + (ij.1 : Int)) (destPos.2 + (ij.2 : Int))))
      exact ⟨d2, hfold, fun a b => (hpix a b).trans (Surface.set_pix_self d _ _ a b)⟩

lemma renderFold_isRet {U : Type} (tm : Tilemap U) (ox oy : Int)
    (hlen : tm.tiles.length = tm.width * tm.height)
    (hwh : tm.width * tm.height < u32Mod)
    (htc : tm.tileset.tile_counts.1 ≠ 0)
    (hdata : tm.tileset.data.length = 4 * (tm.tileset.width * tm.tileset.height))
    (hts : tm.tileset.width * tm.tileset.height < u32Mod) :
    ∀ (l : List (Nat × Nat)), (∀ c ∈ l, c.1 < tm.width ∧ c.2 < tm.height) →
      ∀ (s : Surface), (l.foldl (renderStep tm ox oy) (.ret s)).isRet = true := by
  intro l
  induction l with
  | nil => intro _ s; rfl
  | cons c l ih =>
    intro hb s
    have hc := hb c (List.mem_cons_self c l)
    obtain ⟨t, ht⟩ := tiles_get?_isSome tm hlen hwh hc.1 hc.2
    have hstep : ∃ s2, renderStep tm ox oy (.ret s) c = RRes.ret s2 := by
      simp only [renderStep, ht]
      cases hp : tm.tileset.get_tile_pos t.id with
      | crash =>
        have hq := get_tile_pos_isRet tm.tileset htc t.id
        rw [hp] at hq
        cases hq
      | ret p =>
        cases p with
        | none => exact ⟨s, rfl⟩
        | some q =>
          show ∃ s2, blit_with s (ox, oy) tm.tileset.surface
            (i32ofU32 q.1, i32ofU32 q.2) tm.tileset.opts.tile_size t.opts
            (pixelRule t.color tm.tileset.opts.key_color) = RRes.ret s2
          rw [blit_with_eq]
          exact blitFold_isRet tm.tileset.surface (ox, oy)
            (i32ofU32 q.1, i32ofU32 q.2)
            (pixelRule t.color tm.tileset.opts.key_color)
            (surface_pix_isSome tm.tileset hdata hts)
            (visitList tm.tileset.opts.tile_size) s
    obtain ⟨s2, hs2⟩ := hstep
    rw [List.foldl_cons, hs2]
    exact ih (fun c2 hc2 => hb c2 (List.mem_cons_of_mem _ hc2)) s2

/-- Rendering a map whose tileset supplies the key color at every in-bounds
source position changes no pixel of the destination (and does not panic). -/
lemma renderFold_key_id {U : Type} (tm : Tilemap U) (ox oy : Int) (k : Color)
    (hkey : tm.tileset.opts.key_color = some k)
    (hsrc : ∀ x y : Int, 0 ≤ x → x < ((tm.tileset.width : Nat) : Int) → 0 ≤ y →
      y < ((tm.tileset.height : Nat) : Int) → tm.tileset.surface.pix x y = some k)
    (hlen : tm.tiles.length = tm.width * tm.height)
    (hwh : tm.width * tm.height < u32Mod)
    (htc : tm.tileset.tile_counts.1 ≠ 0) :
    ∀ (l : List (Nat × Nat)), (∀ c ∈ l, c.1 < tm.width ∧ c.2 < tm.height) →
      ∀ (s : Surface), ∃ s2, l.foldl (renderStep tm ox oy) (.ret s) = .ret s2 ∧
        ∀ a b : Int, s2.pix a b = s.pix a b := by
  intro l
  induction l with
  | nil => exact fun _ s => ⟨s, rfl, fun a b => rfl⟩
  | cons c l ih =>
    intro hb s
    have hc := hb c (List.mem_cons_self c l)
    obtain ⟨t, ht⟩ := tiles_get?_isSome tm hlen hwh hc.1 hc.2
    have hf : ∀ d ij, pixelRule t.color tm.tileset.opts.key_color d k ij = d := by
      intro d ij
      unfold pixelRule
      rw [hkey]
      simp
    cases hp : tm.tileset.get_tile_pos t.id with
    | crash =>
      have hq := get_tile_pos_isRet tm.tileset htc t.id
      rw [hp] at hq
      cases hq
    | ret p =>
      cases p with
      | none =>
        have hstep : renderStep tm ox oy (.ret s) c = .ret s := by
          simp only [renderStep, ht, hp]
        rw [List.foldl_cons, hstep]
        exact ih (fun c2 hc2 => hb c2 (List.mem_cons_of_mem _ hc2)) s
      | some q =>
        have hstep : renderStep tm ox oy (.ret s) c =
            blit_with s (ox, oy) tm.tileset.surface (i32ofU32 q.1, i32ofU32 q.2)
              tm.tileset.opts.tile_size t.opts
              (pixelRule t.color tm.tileset.opts.key_color) := by
          simp only [renderStep, ht, hp]
        obtain ⟨s3, hs3, hpix3⟩ := blitFold_key_id tm.tileset.surface (ox, oy)
          (i32ofU32 q.1, i32ofU32 q.2) k (pixelRule t.color tm.tileset.opts.key_color)
          hsrc hf (visitList tm.tileset.opts.tile_size) s
        obtain ⟨s2, hs2, hpix2⟩ := ih (fun c2 hc2 => hb c2 (List.mem_cons_of_mem _ hc2)) s3
        refine ⟨s2, ?_, fun a b => (hpix2 a b).trans (hpix3 a b)⟩
        rw [List.foldl_cons, hstep, blit_with_eq, hs3]
        exact hs2

/-- C5 (amended): no operation of the render pass fails loudly *provided the
layout is not degenerate and the tileset data is full-size*: whenever
`tile_size + margin` is nonzero on both axes, `Tileset::new` completes
without panic; and for a constructed tileset whose derived `tile_counts.x`
is nonzero and whose data holds the intended `width*height*4` bytes,
`get_tile_pos` completes without panic for every id and `Tilemap::render`
completes without panic for every map built by `Tilemap::new`.  (The
unamended claim is false three ways, see the counterexample: a layout with
`tile_size + margin = 0` makes `Tileset::new` panic by a division by zero;
an accepted tileset with `tile_counts.x = 0` makes `get_tile_pos` — and
hence `render` — panic by a remainder by zero; and an accepted tileset with
data shorter than `width*height*4` — reachable through the `size_of::<C>()`
length-check bug — makes `render` panic on an out-of-bounds source pixel
read.) -/
theorem c5_no_loud_failure (U : Type) [Inhabited U] (data : List Nat) (w h mw mh : Nat)
    (opts : TilesetOptions) (sz : Nat) (ts : Tileset) (surface : Surface) (ox oy : Int)
    (hnew : Tileset.new data w h opts sz = RRes.ret (some ts))
    (htc : ts.tile_counts.1 ≠ 0)
    (hdata : ts.data.length = 4 * (ts.width * ts.height))
    (hts : ts.width * ts.height < u32Mod)
    (hwh : mw * mh < u32Mod) :
    (∀ (d2 : List Nat) (w2 h2 : Nat) (o2 : TilesetOptions) (s2 : Nat),
        wadd o2.tile_size.1 o2.margin.1 ≠ 0 → wadd o2.tile_size.2 o2.margin.2 ≠ 0 →
        (Tileset.new d2 w2 h2 o2 s2).isRet = true) ∧
    (∀ id, (ts.get_tile_pos id).isRet = true) ∧
    ((Tilemap.new U mw mh ts).render surface ox oy).isRet = true := by
  refine ⟨?_, fun id => get_tile_pos_isRet ts htc id, ?_⟩
  · intro d2 w2 h2 o2 s2 h1 h2'
    unfold Tileset.new
    split
    · unfold calc_tile_counts
      rw [if_neg (by push_neg; exact ⟨h1, h2'⟩)]
      rfl
    · rfl
  · unfold Tilemap.render
    apply renderFold_isRet
    · show (List.replicate (wmul mw mh) (Tile.default U)).length = mw * mh
      rw [List.length_replicate]
      unfold wmul
      exact Nat.mod_eq_of_lt hwh
    · exact hwh
    · exact htc
    · exact hdata
    · exact hts
    · exact fun c hc => mem_cellList hc

/-- Witness for C5 (amended) on the concrete tileset `tsW` (full 16-byte
data for 2x2 pixels) and a 1x1 map. -/
theorem c5_no_loud_failure_witness :
    (Tileset.new (List.replicate 16 0) 2 2 ⟨(1, 1), (0, 0), (0, 0), Option.none⟩
      4).isRet = true ∧
    (tsW.get_tile_pos 5).isRet = true ∧
    ((Tilemap.new Unit 1 1 tsW).render surfW 0 0).isRet = true := by
  have hx := c5_no_loud_failure Unit (List.replicate 16 0) 2 2 1 1
    ⟨(1, 1), (0, 0), (0, 0), Option.none⟩ 4 tsW surfW 0 0 (by decide) (by decide)
    (by decide) (by decide) (by decide)
  exact ⟨hx.1 (List.replicate 16 0) 2 2 ⟨(1, 1), (0, 0), (0, 0), Option.none⟩ 4
    (by decide) (by decide), hx.2.1 5, hx.2.2⟩

/-- A 2x2-pixel tileset whose key color is `(9, 9, 9, 9)` and whose pixels
are all `(9, 9, 9, 9)` (every byte is 9, full 16-byte data). -/
def tsK : Tileset :=
  ⟨List.replicate 16 9, 2, 2, (2, 2), ⟨(1, 1), (0, 0), (0, 0), some ⟨9, 9, 9, 9⟩⟩⟩

/-- C7: during rendering the per-pixel callback leaves the destination pixel
untouched whenever the source pixel equals the configured key color exactly
(first conjunct); consequently, rendering a map whose full-size tileset
supplies the key color at every in-bounds source position leaves every pixel
of a destination pre-filled with a sentinel unchanged (remaining
conjuncts). -/
theorem c7_key_color_skip {U : Type} (tm : Tilemap U) (surface : Surface) (ox oy : Int)
    (k : Color)
    (hkey : tm.tileset.opts.key_color = some k)
    (hsrc : ∀ x y : Int, 0 ≤ x → x < ((tm.tileset.width : Nat) : Int) → 0 ≤ y →
      y < ((tm.tileset.height : Nat) : Int) → tm.tileset.surface.pix x y = some k)
    (hlen : tm.tiles.length = tm.width * tm.height)
    (hwh : tm.width * tm.height < u32Mod)
    (hdata : tm.tileset.data.length = 4 * (tm.tileset.width * tm.tileset.height))
    (hts : tm.tileset.width * tm.tileset.height < u32Mod)
    (htc : tm.tileset.tile_counts.1 ≠ 0) :
    (∀ (tint d : Color) (ij : Nat × Nat), pixelRule tint (some k) d k ij = d) ∧
    (tm.render surface ox oy).isRet = true ∧
    (∀ a b : Int, ((tm.render surface ox oy).getD surface).pix a b = surface.pix a b) := by
  refine ⟨?_, ?_, ?_⟩
  · intro tint d ij
    unfold pixelRule
    simp
  · unfold Tilemap.render
    exact renderFold_isRet tm ox oy hlen hwh htc hdata hts _
      (fun c hc => mem_cellList hc) surface
  · intro a b
    unfold Tilemap.render
    obtain ⟨s2, hs2, hpix⟩ := renderFold_key_id tm ox oy k hkey hsrc hlen hwh htc
      (cellList tm.width tm.height) (fun c hc => mem_cellList hc) surface
    rw [hs2]
    exact hpix a b

/-- Witness for C7: the all-key 2x2 tileset `tsK` rendered over the
sentinel-filled destination `surfW`. -/
theorem c7_key_color_skip_witness :
    pixelRule ⟨255, 255, 255, 255⟩ (some ⟨9, 9, 9, 9⟩) ⟨1, 2, 3, 4⟩ ⟨9, 9, 9, 9⟩ (0, 0) =
      ⟨1, 2, 3, 4⟩ ∧
    ((Tilemap.new Unit 2 2 tsK).render surfW 0 0).isRet = true ∧
    (((Tilemap.new Unit 2 2 tsK).render surfW 0 0).getD surfW).pix 1 1 =
      surfW.pix 1 1 := by
  have hx := c7_key_color_skip (Tilemap.new Unit 2 2 tsK) surfW 0 0 ⟨9, 9, 9, 9⟩ rfl
    (by
      intro x y hx0 hx2 hy0 hy2
      have hw : (((Tilemap.new Unit 2 2 tsK).tileset.width : Nat) : Int) = 2 := rfl
      have hh : (((Tilemap.new Unit 2 2 tsK).tileset.height : Nat) : Int) = 2 := rfl
      rw [hw] at hx2
      rw [hh] at hy2
      interval_cases x <;> interval_cases y <;> rfl)
    (by decide) (by decide) (by decide) (by decide) (by decide)
  exact ⟨hx.1 ⟨255, 255, 255, 255⟩ ⟨1, 2, 3, 4⟩ (0, 0), hx.2.1, hx.2.2 1 1⟩
